import Mathlib

/-!
Shallow embedding of the monero-db-rs access layer (src/lib.rs,
src/monero_db.rs, src/sub_db.rs) together with a model of the LMDB
primitives the crate consumes (open environment, begin transaction,
cursor get/put, table stat).  Machine integers are modelled as Nat with
explicit truncation modulo 2 to the bit width; byte strings are lists of
naturals below 256.
-/

deriving instance DecidableEq for Except

namespace MoneroDb

/-- Byte strings are lists of naturals; every encoder emits values below 256. -/
abbrev Bytes := List Nat

/-- ZERO_KEY from src/lib.rs: the constant 8-byte zero key used as the
primary key of the multi-value tables keyed purely by sub-key. -/
def ZERO_KEY : Bytes := List.replicate 8 0

/-- Little-endian encoding of a natural into a fixed number of bytes,
truncating above 256 to the width (the semantics of to_le_bytes on a
fixed-width machine integer). -/
def natToLe : Nat → Nat → Bytes
  | 0, _ => []
  | w + 1, n => n % 256 :: natToLe w (n / 256)

/-- Little-endian decoding of a byte string into a natural. -/
def leToNat (bs : Bytes) : Nat := bs.foldr (fun b acc => b % 256 + 256 * acc) 0

/-- Encoding of a u64 value as its 8 little-endian bytes (u64::to_le_bytes).
The explicit mod keeps the Rust u64 domain visible at use sites. -/
def u64le (n : Nat) : Bytes := natToLe 8 (n % 2 ^ 64)

theorem length_natToLe (w n : Nat) : (natToLe w n).length = w := by
  induction w generalizing n with
  | zero => rfl
  | succ w ih => simp [natToLe, ih]

theorem length_u64le (n : Nat) : (u64le n).length = 8 := length_natToLe 8 _

theorem leToNat_natToLe (w n : Nat) (h : n < 256 ^ w) : leToNat (natToLe w n) = n := by
  induction w generalizing n with
  | zero => simpa [natToLe, leToNat] using (Nat.lt_one_iff.mp (by simpa using h)).symm
  | succ w ih =>
      have hdiv : n / 256 < 256 ^ w := by
        rw [Nat.div_lt_iff_lt_mul (by norm_num)]
        calc n < 256 ^ (w + 1) := h
        _ = 256 ^ w * 256 := by rw [pow_succ]
      have := ih (n / 256) hdiv
      simp only [natToLe, leToNat, List.foldr] at this ⊢
      rw [this, Nat.mod_mod_of_dvd _ (by norm_num), Nat.mod_add_div]

theorem leToNat_u64le (n : Nat) (h : n < 2 ^ 64) : leToNat (u64le n) = n := by
  rw [u64le, Nat.mod_eq_of_lt h]
  exact leToNat_natToLe 8 n (by norm_num at h ⊢; omega)

/-- Names of the seventeen sub-databases opened by MoneroSubDB (sub_db.rs). -/
inductive TableId
  | blocks
  | block_heights
  | block_info
  | txs_pruned
  | txs_prunable
  | txs_prunable_hash
  | txs_prunable_tip
  | tx_indices
  | tx_outputs
  | output_txs
  | output_amounts
  | spent_keys
  | txpool_meta
  | txpool_blob
  | alt_blocks
  | hf_versions
  | properties
deriving DecidableEq, Repr

/-- DatabaseFlags used by open_sub_dbs: INTEGER_KEY, DUP_SORT, DUP_FIXED. -/
structure DbFlags where
  integerKey : Bool
  dupSort : Bool
  dupFixed : Bool
deriving DecidableEq, Repr

/-- Flags value DatabaseFlags::INTEGER_KEY. -/
def flagsIntKey : DbFlags := ⟨true, false, false⟩

/-- Flags value INTEGER_KEY | DUP_SORT | DUP_FIXED. -/
def flagsIntDup : DbFlags := ⟨true, true, true⟩

/-- Flags value DatabaseFlags::empty(). -/
def flagsEmpty : DbFlags := ⟨false, false, false⟩

/-- Per-table DatabaseFlags exactly as passed in MoneroSubDB::open_sub_dbs
(sub_db.rs lines 39 to 91). -/
def tableFlags : TableId → DbFlags
  | .blocks => flagsIntKey
  | .block_info => flagsIntDup
  | .block_heights => flagsIntDup
  | .txs_pruned => flagsIntKey
  | .txs_prunable => flagsIntKey
  | .txs_prunable_hash => flagsIntDup
  | .txs_prunable_tip => flagsIntDup
  | .tx_indices => flagsIntDup
  | .tx_outputs => flagsIntDup
  | .output_txs => flagsIntDup
  | .output_amounts => flagsIntDup
  | .spent_keys => flagsIntDup
  | .txpool_meta => flagsEmpty
  | .txpool_blob => flagsEmpty
  | .alt_blocks => flagsEmpty
  | .hf_versions => flagsIntKey
  | .properties => flagsEmpty

/-- Comparison orders that MoneroSubDB::set_sort can install on a table:
plain byte-lexicographic (the LMDB default), first 8 bytes as a
little-endian u64, first 32 bytes as a hash, or C-string order. -/
inductive CmpKind
  | byteLex
  | uint64
  | hash32
  | cstring
deriving DecidableEq, Repr

/-- One comparator installation performed by set_sort; dup is true for the
set_dupsort variants (duplicate-data comparator) and false for the
set_compare variants (key comparator). -/
structure SortInstall where
  table : TableId
  dup : Bool
  cmp : CmpKind
deriving DecidableEq, Repr

/-- Comparator installations of MoneroSubDB::set_sort (sub_db.rs lines 95
to 112), in source order. -/
def sortInstalls : List SortInstall :=
  [ ⟨.spent_keys, true, .hash32⟩
  , ⟨.block_heights, true, .hash32⟩
  , ⟨.tx_indices, true, .hash32⟩
  , ⟨.output_amounts, true, .uint64⟩
  , ⟨.output_txs, true, .uint64⟩
  , ⟨.block_info, true, .uint64⟩
  , ⟨.txs_prunable_tip, true, .uint64⟩
  , ⟨.txs_prunable, false, .uint64⟩
  , ⟨.txs_prunable_hash, true, .uint64⟩
  , ⟨.txpool_meta, false, .hash32⟩
  , ⟨.txpool_blob, false, .hash32⟩
  , ⟨.alt_blocks, false, .hash32⟩
  , ⟨.properties, false, .cstring⟩ ]

/-- Duplicate-data comparator in force on a table after set_sort ran: the
kind of the set_dupsort install for the table, or the byte-lexicographic
default when none was installed. -/
def dupCmpKind (t : TableId) : CmpKind :=
  match (sortInstalls.filter fun i => i.dup && i.table == t).head? with
  | some i => i.cmp
  | none => .byteLex

/-- One stored record of the engine: a (table, key, data) triple.  On a
DUP_SORT table many triples may share (table, key); on a plain table the
write path keeps at most one triple per (table, key). -/
structure Entry where
  table : TableId
  key : Bytes
  data : Bytes
deriving DecidableEq, Repr

/-- Engine state: the multiset of stored triples, as a list. -/
abbrev EngineState := List Entry

/-- LMDB error code MDB_NOTFOUND, matched against -30798 in
is_key_image_spent. -/
def MDB_NOTFOUND : Int := -30798

/-- LMDB error code MDB_KEYEXIST, returned by a put with NO_DUP_DATA when
the identical pair is already present in a DUP_SORT table. -/
def MDB_KEYEXIST : Int := -30799

/-- LMDB error code EINVAL for an unsupported cursor operation. -/
def EINVAL_CODE : Int := 22

/-- Equality test under an installed comparator: hash32 compares the first
32 bytes, uint64 the first 8 bytes, byte-lexicographic and C-string order
degenerate to full equality for the equality test a lookup needs. -/
def cmpEq (c : CmpKind) (a b : Bytes) : Bool :=
  match c with
  | .hash32 => a.take 32 == b.take 32
  | .uint64 => a.take 8 == b.take 8
  | _ => a == b

/-- Model of the cursor get primitive used by get_raw_item.  The crate
calls it with three operation codes: 0 (MDB_FIRST, first entry of the
table), 2 (MDB_GET_BOTH, exact key plus duplicate-comparator match on the
data), and 15 (MDB_SET, position at the key and return its data).  A miss
is the engine error MDB_NOTFOUND. -/
def engineGet (st : EngineState) (t : TableId) (key data : Bytes) (op : Nat) :
    Except Int Bytes :=
  if op = 0 then
    match st.find? fun e => e.table == t with
    | some e => .ok e.data
    | none => .error MDB_NOTFOUND
  else if op = 2 then
    match st.find? fun e => e.table == t && e.key == key
        && cmpEq (dupCmpKind t) e.data data with
    | some e => .ok e.data
    | none => .error MDB_NOTFOUND
  else if op = 15 then
    match st.find? fun e => e.table == t && e.key == key with
    | some e => .ok e.data
    | none => .error MDB_NOTFOUND
  else .error EINVAL_CODE

/-- Model of the cursor put primitive with WriteFlags::NO_DUP_DATA, the
only flags value the crate uses.  On a DUP_SORT table an identical
(key, data) pair is refused with MDB_KEYEXIST; on a plain table the put
replaces any existing entry under the key. -/
def enginePut (st : EngineState) (t : TableId) (key data : Bytes) :
    Except Int EngineState :=
  if (tableFlags t).dupSort then
    if (⟨t, key, data⟩ : Entry) ∈ st then .error MDB_KEYEXIST
    else .ok (⟨t, key, data⟩ :: st)
  else
    .ok (⟨t, key, data⟩ :: st.filter fun e => !(e.table == t && e.key == key))

/-- Model of the stat primitive used by get_blockchain_height and
get_tx_count: the number of entries currently in a table. -/
def engineStat (st : EngineState) (t : TableId) : Nat :=
  (st.filter fun e => e.table == t).length

/-- Error type of the crate.  The first three constructors mirror the enum
in src/lib.rs (DatabaseError wrapping the engine code, ValueError for a
malformed caller input, MoneroDecodingError for bytes that do not decode);
ReadOnly mirrors the read-only rejection value Error::ReadOnly that
monero_db.rs returns from both writers. -/
inductive Error
  | DatabaseError (code : Int)
  | ValueError (msg : String)
  | MoneroDecodingError
  | ReadOnly
deriving DecidableEq, Repr

/-- Outcome of beginning an engine transaction: none means the begin call
succeeded, some c that it failed with engine code c.  Each accessor in the
source opens its own transaction with the question-mark operator, so every
embedded accessor takes one such outcome per transaction it opens. -/
abbrev TxnOutcome := Option Int

/-- Embedding of get_raw_item (monero_db.rs lines 392 to 404): begin a
read transaction, open a cursor, run one get, return the raw data bytes. -/
def get_raw_item (txn : TxnOutcome) (st : EngineState) (db : TableId)
    (key data : Bytes) (op : Nat) : Except Error Bytes :=
  match txn with
  | some c => .error (.DatabaseError c)
  | none =>
    match engineGet st db key data op with
    | .ok v => .ok v
    | .error c => .error (.DatabaseError c)

/-- Embedding of get_item (monero_db.rs lines 406 to 416): get_raw_item
followed by deserialize; dec stands for the Decodable instance of the
target type. -/
def get_item (dec : Bytes → Option α) (txn : TxnOutcome) (st : EngineState)
    (db : TableId) (key data : Bytes) (op : Nat) : Except Error α :=
  match get_raw_item txn st db key data op with
  | .error e => .error e
  | .ok v =>
    match dec v with
    | some x => .ok x
    | none => .error .MoneroDecodingError

/-- Embedding of put_item (monero_db.rs lines 418 to 428): begin a write
transaction, open a cursor, put with NO_DUP_DATA.  The engine fork is
expected to persist the put when the call returns Ok, which is the
behaviour the spec relies on for its read-back properties. -/
def put_item (txn : TxnOutcome) (st : EngineState) (db : TableId)
    (key data : Bytes) : Except Error EngineState :=
  match txn with
  | some c => .error (.DatabaseError c)
  | none =>
    match enginePut st db key data with
    | .ok st2 => .ok st2
    | .error c => .error (.DatabaseError c)

/-- Reader for a fixed number of bytes from the front of a byte string,
failing when too few remain.  Building block of the record decoders. -/
def readBytes (n : Nat) (bs : Bytes) : Option (Bytes × Bytes) :=
  if n ≤ bs.length then some (bs.take n, bs.drop n) else none

theorem readBytes_append (l r : Bytes) (n : Nat) (h : l.length = n) :
    readBytes n (l ++ r) = some (l, r) := by
  subst h
  simp [readBytes, List.take_left, List.drop_left]

/-- Modelled from the spec: a Monero block of the monero crate (not under
src), reduced to its cryptographic identifier together with the remaining
serialized body.  The hash function itself is outside the embedding, so
the identifier is carried as a field. -/
structure MBlock where
  hashId : Bytes
  body : Bytes
deriving DecidableEq, Repr

/-- Modelled from the spec: Block::id() of the monero crate, the block
hash used by add_alt_block as the storage key. -/
def blockId (b : MBlock) : Bytes := b.hashId

/-- Modelled from the spec: the Record Codec encode for a block, a
length-tagged binary layout so that decode can recover the body. -/
def encodeBlock (b : MBlock) : Bytes :=
  b.hashId ++ (u64le b.body.length ++ b.body)

/-- Modelled from the spec: the Record Codec decode for a block,
consuming its bytes from the front of the input and returning the rest. -/
def decodeBlockAux (bs : Bytes) : Option (MBlock × Bytes) := do
  let (h, r1) ← readBytes 32 bs
  let (lenB, r2) ← readBytes 8 r1
  let (body, r3) ← readBytes (leToNat lenB) r2
  pure (⟨h, body⟩, r3)

/-- Modelled from the spec: AltBlock of the monero crate, a fork-candidate
block together with its chain position data. -/
structure AltBlock where
  block : MBlock
  height : Nat
  cumulativeDifficulty : Nat
deriving DecidableEq, Repr

/-- Modelled from the spec: the Record Codec encode for AltBlock
(serialize in add_alt_block). -/
def encodeAltBlock (ab : AltBlock) : Bytes :=
  encodeBlock ab.block ++ (u64le ab.height ++ natToLe 16 ab.cumulativeDifficulty)

/-- Modelled from the spec: the Record Codec decode for AltBlock
(deserialize in get_alt_block); deserialize fails when bytes are left
over, mirrored by the final emptiness check. -/
def decodeAltBlock (bs : Bytes) : Option AltBlock := do
  let (b, r1) ← decodeBlockAux bs
  let (hB, r2) ← readBytes 8 r1
  let (dB, r3) ← readBytes 16 r2
  if r3.isEmpty then pure ⟨b, leToNat hB, leToNat dB⟩ else none

/-- Well-formedness of an AltBlock value: the hash is 32 bytes and the
numeric fields fit the machine widths their encodings use. -/
def WfAltBlock (ab : AltBlock) : Prop :=
  ab.block.hashId.length = 32 ∧ ab.block.body.length < 2 ^ 64 ∧
    ab.height < 2 ^ 64 ∧ ab.cumulativeDifficulty < 2 ^ 128

instance (ab : AltBlock) : Decidable (WfAltBlock ab) := by
  unfold WfAltBlock; infer_instance

/-- Modelled from the spec: a stored ed25519 public key (the decoded type
of the spent_keys lookup); its consensus decoding accepts exactly 32
bytes. -/
structure PublicKey where
  bytes : Bytes
deriving DecidableEq, Repr

/-- Modelled from the spec: consensus decode of a PublicKey, which
requires exactly 32 bytes of input. -/
def decodePublicKey (bs : Bytes) : Option PublicKey :=
  if bs.length = 32 then some ⟨bs⟩ else none

/-- Modelled from the spec: BlockInfo of the monero crate, the per-height
record of block_info; its layout starts with the 8-byte height, which is
what the uint64 duplicate comparator of block_info keys on, and carries
the cumulative difficulty as a 64-bit low and high pair. -/
structure BlockInfo where
  bi_height : Nat
  bi_timestamp : Nat
  bi_coins : Nat
  bi_weight : Nat
  bi_diff_lo : Nat
  bi_diff_hi : Nat
  bi_hash : Bytes
  bi_cum_rct : Nat
  bi_long_term_block_weight : Nat
deriving DecidableEq, Repr

/-- Modelled from the spec: BlockInfo::cumulative_difficulty() of the
monero crate, joining the 64-bit halves into the u128 value. -/
def cumulative_difficulty (bi : BlockInfo) : Nat :=
  bi.bi_diff_lo + 2 ^ 64 * bi.bi_diff_hi

/-- Modelled from the spec: the Record Codec encode for BlockInfo, a
fixed-width little-endian field concatenation beginning with the height. -/
def encodeBlockInfo (bi : BlockInfo) : Bytes :=
  u64le bi.bi_height ++ (u64le bi.bi_timestamp ++ (u64le bi.bi_coins ++
    (u64le bi.bi_weight ++ (u64le bi.bi_diff_lo ++ (u64le bi.bi_diff_hi ++
      (bi.bi_hash ++ (u64le bi.bi_cum_rct ++ u64le bi.bi_long_term_block_weight)))))))

/-- Modelled from the spec: the Record Codec decode for BlockInfo. -/
def decodeBlockInfo (bs : Bytes) : Option BlockInfo := do
  let (hB, r1) ← readBytes 8 bs
  let (tB, r2) ← readBytes 8 r1
  let (cB, r3) ← readBytes 8 r2
  let (wB, r4) ← readBytes 8 r3
  let (loB, r5) ← readBytes 8 r4
  let (hiB, r6) ← readBytes 8 r5
  let (hashB, r7) ← readBytes 32 r6
  let (rctB, r8) ← readBytes 8 r7
  let (ltB, r9) ← readBytes 8 r8
  if r9.isEmpty then
    pure ⟨leToNat hB, leToNat tB, leToNat cB, leToNat wB, leToNat loB,
      leToNat hiB, hashB, leToNat rctB, leToNat ltB⟩
  else none

/-- Modelled from the spec: a pool transaction of the monero crate,
reduced to its hash identifier and serialized body (the hash function is
outside the embedding). -/
structure MTransaction where
  hashId : Bytes
  body : Bytes
deriving DecidableEq, Repr

/-- Modelled from the spec: Transaction::hash() used by add_txpool_tx as
the storage key of both pool tables. -/
def txHash (tx : MTransaction) : Bytes := tx.hashId

/-- Modelled from the spec: serialize of a pool transaction. -/
def encodeTx (tx : MTransaction) : Bytes := tx.body

/-- Modelled from the spec: TxPoolMeta of the monero crate, kept as its
serialized bytes since only its storage placement matters here. -/
structure TxPoolMeta where
  raw : Bytes
deriving DecidableEq, Repr

/-- Modelled from the spec: serialize of a TxPoolMeta record. -/
def encodeTxPoolMeta (m : TxPoolMeta) : Bytes := m.raw

/-- Modelled from the spec: structural decode of a record kept raw in this
embedding (records whose field layout no claim depends on). -/
def decodeRaw (bs : Bytes) : Option Bytes := some bs

/-- Decoder for a single byte (the hard fork version records). -/
def decodeU8 (bs : Bytes) : Option Nat :=
  match bs with
  | [b] => some (b % 256)
  | _ => none

/-- Decoder for a little-endian u32 (the property records). -/
def decodeU32 (bs : Bytes) : Option Nat :=
  if bs.length = 4 then some (leToNat bs) else none

/-- Decoder for a little-endian u64. -/
def decodeU64 (bs : Bytes) : Option Nat :=
  if bs.length = 8 then some (leToNat bs) else none

/-- Decoder for a 32-byte hash. -/
def decodeHash (bs : Bytes) : Option Bytes :=
  if bs.length = 32 then some bs else none

/-- Embedding of the MoneroDB handle: the engine state reachable through
the environment plus the read_only field recorded at open. -/
structure MoneroDB where
  store : EngineState
  read_only : Bool
deriving DecidableEq, Repr

/-- Embedding of MoneroDB::get_alt_block. -/
def get_alt_block (txn : TxnOutcome) (db : MoneroDB) (block_hash : Bytes) :
    Except Error AltBlock :=
  get_item decodeAltBlock txn db.store .alt_blocks block_hash [0] 15

/-- Embedding of MoneroDB::get_block. -/
def get_block (txn : TxnOutcome) (db : MoneroDB) (block_height : Nat) :
    Except Error (MBlock × Bytes) :=
  get_item decodeBlockAux txn db.store .blocks (u64le block_height) [0] 15

/-- Embedding of MoneroDB::get_block_info. -/
def get_block_info (txn : TxnOutcome) (db : MoneroDB) (block_height : Nat) :
    Except Error BlockInfo :=
  get_item decodeBlockInfo txn db.store .block_info ZERO_KEY (u64le block_height) 2

/-- Truncated u128 subtraction, the meaning of the difference of the two
cumulative difficulty values in get_block_difficulty under the wrapping
semantics of release-mode Rust. -/
def sub128 (a b : Nat) : Nat := (2 ^ 128 + a - b) % 2 ^ 128

/-- Embedding of MoneroDB::get_block_difficulty.  The source computes
block_height - 1 on a u64; this embedding uses the release-mode wrapping
value (block_height + 2 to the 64 minus 1, truncated by u64le), so at
height 0 the predecessor sub-key is 2 to the 64 minus 1. -/
def get_block_difficulty (txn1 txn2 : TxnOutcome) (db : MoneroDB)
    (block_height : Nat) : Except Error Nat :=
  match get_item decodeBlockInfo txn1 db.store .block_info ZERO_KEY
      (u64le (block_height + (2 ^ 64 - 1))) 2 with
  | .error e => .error e
  | .ok prev_block =>
    match get_item decodeBlockInfo txn2 db.store .block_info ZERO_KEY
        (u64le block_height) 2 with
    | .error e => .error e
    | .ok block =>
      .ok (sub128 (cumulative_difficulty block) (cumulative_difficulty prev_block))

/-- Embedding of MoneroDB::get_block_height. -/
def get_block_height (txn : TxnOutcome) (db : MoneroDB) (block_hash : Bytes) :
    Except Error Bytes :=
  get_item decodeRaw txn db.store .block_heights ZERO_KEY block_hash 2

/-- Embedding of MoneroDB::get_blockchain_height: a read transaction and a
stat call on block_heights, the entry count returned as a u64. -/
def get_blockchain_height (txn : TxnOutcome) (db : MoneroDB) : Except Error Nat :=
  match txn with
  | some c => .error (.DatabaseError c)
  | none => .ok (engineStat db.store .block_heights)

/-- Embedding of MoneroDB::get_tx_count: a stat call on txs_pruned. -/
def get_tx_count (txn : TxnOutcome) (db : MoneroDB) : Except Error Nat :=
  match txn with
  | some c => .error (.DatabaseError c)
  | none => .ok (engineStat db.store .txs_pruned)

/-- Embedding of MoneroDB::get_hf_version. -/
def get_hf_version (txn : TxnOutcome) (db : MoneroDB) (block_height : Nat) :
    Except Error Nat :=
  get_item decodeU8 txn db.store .hf_versions (u64le block_height) [0] 15

/-- Embedding of MoneroDB::get_tx_pruned; the pruned transaction record is
kept raw in this embedding. -/
def get_tx_pruned (txn : TxnOutcome) (db : MoneroDB) (txn_id : Nat) :
    Except Error Bytes :=
  get_item decodeRaw txn db.store .txs_pruned (u64le txn_id) [0] 15

/-- Embedding of MoneroDB::get_tx_prunable, the one accessor built
directly on get_raw_item. -/
def get_tx_prunable (txn : TxnOutcome) (db : MoneroDB) (txn_id : Nat) :
    Except Error Bytes :=
  get_raw_item txn db.store .txs_prunable (u64le txn_id) [0] 15

/-- Embedding of MoneroDB::get_output_rct_outkey; the record is kept raw
in this embedding. -/
def get_output_rct_outkey (txn : TxnOutcome) (db : MoneroDB)
    (amount amount_output_index : Nat) : Except Error Bytes :=
  get_item decodeRaw txn db.store .output_amounts (u64le amount)
    (u64le amount_output_index) 2

/-- Embedding of MoneroDB::get_output_pre_rct_outkey; the record is kept
raw in this embedding. -/
def get_output_pre_rct_outkey (txn : TxnOutcome) (db : MoneroDB)
    (amount amount_output_index : Nat) : Except Error Bytes :=
  get_item decodeRaw txn db.store .output_amounts (u64le amount)
    (u64le amount_output_index) 2

/-- Embedding of MoneroDB::get_tx_output_idx; the record is kept raw in
this embedding. -/
def get_tx_output_idx (txn : TxnOutcome) (db : MoneroDB) (txn_id : Nat) :
    Except Error Bytes :=
  get_item decodeRaw txn db.store .tx_outputs (u64le txn_id) [0] 15

/-- Embedding of MoneroDB::get_txs_prunable_hash. -/
def get_txs_prunable_hash (txn : TxnOutcome) (db : MoneroDB) (txn_id : Nat) :
    Except Error Bytes :=
  get_item decodeHash txn db.store .txs_prunable_hash (u64le txn_id) [0] 15

/-- Embedding of MoneroDB::get_txs_prunable_tip. -/
def get_txs_prunable_tip (txn : TxnOutcome) (db : MoneroDB) (txn_id : Nat) :
    Except Error Nat :=
  get_item decodeU64 txn db.store .txs_prunable_tip (u64le txn_id) [0] 15

/-- Embedding of MoneroDB::get_prunable_tip, the one accessor using cursor
operation 0 (first entry). -/
def get_prunable_tip (txn : TxnOutcome) (db : MoneroDB) : Except Error Nat :=
  get_item decodeU64 txn db.store .txs_prunable_tip [0] [0] 0

/-- Embedding of MoneroDB::get_output_tx; the record is kept raw in this
embedding. -/
def get_output_tx (txn : TxnOutcome) (db : MoneroDB) (output_id : Nat) :
    Except Error Bytes :=
  get_item decodeRaw txn db.store .output_txs ZERO_KEY (u64le output_id) 2

/-- Embedding of MoneroDB::get_tx_indices; the record is kept raw in this
embedding. -/
def get_tx_indices (txn : TxnOutcome) (db : MoneroDB) (txn_hash : Bytes) :
    Except Error Bytes :=
  get_item decodeRaw txn db.store .tx_indices ZERO_KEY txn_hash 2

/-- Embedding of MoneroDB::is_key_image_spent (monero_db.rs lines 281 to
292): one spent_keys lookup; a DatabaseError with code -30798 becomes
Ok false, any other DatabaseError is returned, and every remaining
outcome, the Ok case included, becomes Ok true. -/
def is_key_image_spent (txn : TxnOutcome) (db : MoneroDB) (spent_key : Bytes) :
    Except Error Bool :=
  match get_item decodePublicKey txn db.store .spent_keys ZERO_KEY spent_key 2 with
  | .error (.DatabaseError e) =>
    if e = MDB_NOTFOUND then .ok false
    else .error (.DatabaseError e)
  | _ => .ok true

/-- Embedding of MoneroDB::get_txpool_tx; the transaction body is kept raw
in this embedding. -/
def get_txpool_tx (txn : TxnOutcome) (db : MoneroDB) (txn_hash : Bytes) :
    Except Error Bytes :=
  get_item decodeRaw txn db.store .txpool_blob txn_hash [0] 15

/-- Embedding of MoneroDB::get_txpool_meta; the record is kept raw in this
embedding. -/
def get_txpool_meta (txn : TxnOutcome) (db : MoneroDB) (txn_hash : Bytes) :
    Except Error Bytes :=
  get_item decodeRaw txn db.store .txpool_meta txn_hash [0] 15

/-- Byte string of the C string literal version with its null terminator. -/
def versionKey : Bytes := [118, 101, 114, 115, 105, 111, 110, 0]

/-- Embedding of MoneroDB::get_db_version. -/
def get_db_version (txn : TxnOutcome) (db : MoneroDB) : Except Error Nat :=
  get_item decodeU32 txn db.store .properties versionKey [0] 15

/-- Byte string of the C string literal pruning_seed with its null
terminator. -/
def pruningSeedKey : Bytes := [112, 114, 117, 110, 105, 110, 103, 95, 115, 101, 101, 100, 0]

/-- Embedding of MoneroDB::get_db_pruning_seed. -/
def get_db_pruning_seed (txn : TxnOutcome) (db : MoneroDB) : Except Error Nat :=
  get_item decodeU32 txn db.store .properties pruningSeedKey [0] 15

/-- Byte string of the C string literal max_block_size with its null
terminator. -/
def maxBlockSizeKey : Bytes := [109, 97, 120, 95, 98, 108, 111, 99, 107, 95, 115, 105, 122, 101, 0]

/-- Embedding of MoneroDB::get_max_block_size. -/
def get_max_block_size (txn : TxnOutcome) (db : MoneroDB) : Except Error Nat :=
  get_item decodeU64 txn db.store .properties maxBlockSizeKey [0] 15

/-- Embedding of MoneroDB::is_readonly. -/
def is_readonly (db : MoneroDB) : Bool := db.read_only

/-- Embedding of MoneroDB::add_alt_block: a read-only handle is rejected
before any engine call; otherwise the serialized alt block is put under
the hash of the contained block.  The pair returned is the handle after
the call together with the result of the call. -/
def add_alt_block (txn : TxnOutcome) (db : MoneroDB) (alt_block : AltBlock) :
    MoneroDB × Except Error Unit :=
  if is_readonly db then (db, .error .ReadOnly)
  else
    match put_item txn db.store .alt_blocks (blockId alt_block.block)
        (encodeAltBlock alt_block) with
    | .ok st2 => ({ db with store := st2 }, .ok ())
    | .error e => (db, .error e)

/-- Embedding of MoneroDB::add_txpool_tx: a read-only handle is rejected
first; otherwise two put_item calls run in sequence, each opening its own
write transaction as in the source, the metadata put first and the blob
put second.  When the second put fails the state already holds the
committed first put. -/
def add_txpool_tx (txn1 txn2 : TxnOutcome) (db : MoneroDB)
    (tx : MTransaction) (tx_meta : TxPoolMeta) : MoneroDB × Except Error Unit :=
  if is_readonly db then (db, .error .ReadOnly)
  else
    let tx_hash := txHash tx
    match put_item txn1 db.store .txpool_meta tx_hash (encodeTxPoolMeta tx_meta) with
    | .error e => (db, .error e)
    | .ok st1 =>
      match put_item txn2 st1 .txpool_blob tx_hash (encodeTx tx) with
      | .error e => ({ db with store := st1 }, .error e)
      | .ok st2 => ({ db with store := st2 }, .ok ())

/-- Environment configuration produced by MoneroDB::open before the
environment is opened (monero_db.rs lines 40 to 51). -/
structure EnvConfig where
  maxDbs : Nat
  mapSize : Nat
  maxReaders : Nat
  noReadahead : Bool
  readOnly : Bool
  noLock : Bool
deriving DecidableEq, Repr

/-- Embedding of the configuration part of MoneroDB::open: the flags start
as NO_READAHEAD, read_only adds READ_ONLY and NO_LOCK, and the builder
sets max_dbs 32, map_size 2 to the 30, and max_readers 126. -/
def openEnvConfig (read_only : Bool) : EnvConfig :=
  { maxDbs := 32
    mapSize := 2 ^ 30
    maxReaders := 126
    noReadahead := true
    readOnly := read_only
    noLock := read_only }

/-- Literal table name passed to open_db_with_flags for each sub-database. -/
def tableName : TableId → String
  | .blocks => "blocks"
  | .block_heights => "block_heights"
  | .block_info => "block_info"
  | .txs_pruned => "txs_pruned"
  | .txs_prunable => "txs_prunable"
  | .txs_prunable_hash => "txs_prunable_hash"
  | .txs_prunable_tip => "txs_prunable_tip"
  | .tx_indices => "tx_indices"
  | .tx_outputs => "tx_outputs"
  | .output_txs => "output_txs"
  | .output_amounts => "output_amounts"
  | .spent_keys => "spent_keys"
  | .txpool_meta => "txpool_meta"
  | .txpool_blob => "txpool_blob"
  | .alt_blocks => "alt_blocks"
  | .hf_versions => "hf_versions"
  | .properties => "properties"

/-- Tables opened by MoneroSubDB::open_sub_dbs, in the order of the struct
literal in sub_db.rs. -/
def allTables : List TableId :=
  [ .blocks, .block_info, .block_heights, .txs_pruned, .txs_prunable
  , .txs_prunable_hash, .txs_prunable_tip, .tx_indices, .tx_outputs
  , .output_txs, .output_amounts, .spent_keys, .txpool_meta, .txpool_blob
  , .alt_blocks, .hf_versions, .properties ]

/-- Modelled from the spec: the multi-value column of the data model table
in section 3 of the spec, true for the tables the spec lists as
multi-value (duplicate primary key). -/
def specMultiValue : TableId → Bool
  | .block_info => true
  | .block_heights => true
  | .txs_prunable_hash => true
  | .txs_prunable_tip => true
  | .tx_indices => true
  | .tx_outputs => true
  | .output_txs => true
  | .output_amounts => true
  | .spent_keys => true
  | _ => false

theorem readBytes_exact (l : Bytes) (n : Nat) (h : l.length = n) :
    readBytes n l = some (l, []) := by
  have := readBytes_append l [] n h
  simpa using this

theorem decodeBlockAux_encodeBlock (b : MBlock) (r : Bytes)
    (h32 : b.hashId.length = 32) (hlen : b.body.length < 2 ^ 64) :
    decodeBlockAux (encodeBlock b ++ r) = some (b, r) := by
  have h1 : encodeBlock b ++ r = b.hashId ++ (u64le b.body.length ++ (b.body ++ r)) := by
    simp [encodeBlock]
  rw [h1, decodeBlockAux]
  rw [readBytes_append _ _ _ h32]
  simp only [Option.bind_eq_bind, Option.some_bind]
  rw [readBytes_append _ _ _ (length_u64le _)]
  simp only [Option.some_bind]
  rw [leToNat_u64le _ hlen, readBytes_append _ _ _ rfl]
  rfl

theorem decodeAltBlock_encodeAltBlock (ab : AltBlock) (h : WfAltBlock ab) :
    decodeAltBlock (encodeAltBlock ab) = some ab := by
  obtain ⟨h32, hbody, hheight, hdiff⟩ := h
  rw [decodeAltBlock, encodeAltBlock]
  rw [decodeBlockAux_encodeBlock ab.block _ h32 hbody]
  simp only [Option.bind_eq_bind, Option.some_bind]
  rw [readBytes_append _ _ _ (length_u64le _)]
  simp only [Option.some_bind]
  rw [readBytes_exact _ _ (length_natToLe 16 _)]
  simp only [Option.some_bind, List.isEmpty_nil]
  rw [leToNat_u64le _ hheight,
    leToNat_natToLe 16 _ (by norm_num at hdiff ⊢; omega)]
  rfl

theorem get_item_engine_error {α : Type} (dec : Bytes → Option α)
    (st : EngineState) (t : TableId) (key data : Bytes) (op : Nat) (c : Int)
    (h : engineGet st t key data op = .error c) :
    get_item dec none st t key data op = .error (.DatabaseError c) := by
  simp [get_item, get_raw_item, h]

/-- Concrete alt block used by the round-trip witness. -/
def wAb : AltBlock := ⟨⟨List.replicate 32 7, [1, 2, 3]⟩, 5, 9⟩

/-- Claim C1: a record written through the write path on a writable store
and read back via the same key, here an alt block written with
add_alt_block and read with get_alt_block under the hash of the contained
block, comes back equal to the original record: decode after encode is the
identity across the write-then-read round trip. -/
theorem alt_block_write_read_roundtrip (db : MoneroDB) (ab : AltBlock)
    (hro : db.read_only = false) (hwf : WfAltBlock ab) :
    (add_alt_block none db ab).2 = .ok () ∧
      get_alt_block none (add_alt_block none db ab).1 (blockId ab.block) = .ok ab := by
  have hput : put_item none db.store .alt_blocks (blockId ab.block)
      (encodeAltBlock ab)
      = .ok (⟨.alt_blocks, blockId ab.block, encodeAltBlock ab⟩ ::
          db.store.filter fun e =>
            !(e.table == TableId.alt_blocks && e.key == blockId ab.block)) := by
    simp [put_item, enginePut, tableFlags, flagsEmpty]
  constructor
  · simp [add_alt_block, is_readonly, hro, hput]
  · simp [add_alt_block, is_readonly, hro, hput, get_alt_block, get_item,
      get_raw_item, engineGet, List.find?,
      decodeAltBlock_encodeAltBlock ab hwf]

/-- Witness for C1: the round trip evaluated at a concrete alt block over
the empty writable store. -/
theorem alt_block_write_read_roundtrip_witness :
    ((⟨[], false⟩ : MoneroDB).read_only = false ∧ WfAltBlock wAb) ∧
      get_alt_block none (add_alt_block none ⟨[], false⟩ wAb).1 (blockId wAb.block)
        = .ok wAb :=
  ⟨⟨rfl, by decide⟩,
    (alt_block_write_read_roundtrip ⟨[], false⟩ wAb rfl (by decide)).2⟩

/-- Concrete pool transaction used by the txpool write evaluations. -/
def wTx : MTransaction := ⟨List.replicate 32 1, [9]⟩

/-- Concrete pool metadata record used by the txpool write evaluations. -/
def wMeta : TxPoolMeta := ⟨[7]⟩

/-- Claim C2 evaluation: add_txpool_tx runs its two puts in two separate
write transactions, so when the first commits and the transaction of the
second fails the store is left holding the txpool_meta record for
the transaction hash without the txpool_blob record, against the
both-or-neither pairing the claim states. -/
theorem add_txpool_tx_split_write :
    add_txpool_tx none (some (-30792)) ⟨[], false⟩ wTx wMeta
      = (⟨[⟨.txpool_meta, List.replicate 32 1, [7]⟩], false⟩,
          .error (.DatabaseError (-30792))) ∧
    engineStat (add_txpool_tx none (some (-30792)) ⟨[], false⟩ wTx wMeta).1.store
        .txpool_meta = 1 ∧
    engineStat (add_txpool_tx none (some (-30792)) ⟨[], false⟩ wTx wMeta).1.store
        .txpool_blob = 0 := by
  decide

/-- Claim C7: on a handle opened read-only every write operation fails
with the read-only error and returns the handle unchanged, so nothing is
written. -/
theorem readonly_rejects_writes (db : MoneroDB) (hro : db.read_only = true) :
    (∀ (txn : TxnOutcome) (ab : AltBlock),
        add_alt_block txn db ab = (db, .error .ReadOnly)) ∧
    (∀ (txn1 txn2 : TxnOutcome) (tx : MTransaction) (tx_meta : TxPoolMeta),
        add_txpool_tx txn1 txn2 db tx tx_meta = (db, .error .ReadOnly)) := by
  refine ⟨fun txn ab => ?_, fun txn1 txn2 tx tx_meta => ?_⟩ <;>
    simp [add_alt_block, add_txpool_tx, is_readonly, hro]

/-- Witness for C7: both writers evaluated on the empty read-only store. -/
theorem readonly_rejects_writes_witness :
    (⟨[], true⟩ : MoneroDB).read_only = true ∧
      add_alt_block none ⟨[], true⟩ wAb = (⟨[], true⟩, .error .ReadOnly) ∧
      add_txpool_tx none none ⟨[], true⟩ wTx wMeta = (⟨[], true⟩, .error .ReadOnly) :=
  ⟨rfl, (readonly_rejects_writes ⟨[], true⟩ rfl).1 none wAb,
    (readonly_rejects_writes ⟨[], true⟩ rfl).2 none none wTx wMeta⟩

/-- Claim C3: is_key_image_spent is the one operation translating the
not-found failure of the engine into a successful result: a not-found lookup
gives Ok false, a found value gives Ok true, any other storage failure is
propagated; and every other accessor returns the not-found failure of its
lookup as a hard DatabaseError. -/
theorem key_image_spent_notfound_translation (txn : TxnOutcome) (db : MoneroDB)
    (k : Bytes) :
    (get_item decodePublicKey txn db.store .spent_keys ZERO_KEY k 2
        = .error (.DatabaseError MDB_NOTFOUND) →
      is_key_image_spent txn db k = .ok false) ∧
    (∀ c : Int, c ≠ MDB_NOTFOUND →
      get_item decodePublicKey txn db.store .spent_keys ZERO_KEY k 2
          = .error (.DatabaseError c) →
      is_key_image_spent txn db k = .error (.DatabaseError c)) ∧
    (∀ v : PublicKey,
      get_item decodePublicKey txn db.store .spent_keys ZERO_KEY k 2 = .ok v →
      is_key_image_spent txn db k = .ok true) ∧
    (engineGet db.store .alt_blocks k [0] 15 = .error MDB_NOTFOUND →
      get_alt_block none db k = .error (.DatabaseError MDB_NOTFOUND)) ∧
    (∀ h : Nat, engineGet db.store .blocks (u64le h) [0] 15 = .error MDB_NOTFOUND →
      get_block none db h = .error (.DatabaseError MDB_NOTFOUND)) ∧
    (∀ h : Nat,
      engineGet db.store .block_info ZERO_KEY (u64le h) 2 = .error MDB_NOTFOUND →
      get_block_info none db h = .error (.DatabaseError MDB_NOTFOUND)) ∧
    (engineGet db.store .block_heights ZERO_KEY k 2 = .error MDB_NOTFOUND →
      get_block_height none db k = .error (.DatabaseError MDB_NOTFOUND)) ∧
    (∀ h : Nat,
      engineGet db.store .hf_versions (u64le h) [0] 15 = .error MDB_NOTFOUND →
      get_hf_version none db h = .error (.DatabaseError MDB_NOTFOUND)) ∧
    (∀ i : Nat, engineGet db.store .txs_pruned (u64le i) [0] 15 = .error MDB_NOTFOUND →
      get_tx_pruned none db i = .error (.DatabaseError MDB_NOTFOUND)) ∧
    (∀ i : Nat,
      engineGet db.store .txs_prunable (u64le i) [0] 15 = .error MDB_NOTFOUND →
      get_tx_prunable none db i = .error (.DatabaseError MDB_NOTFOUND)) ∧
    (∀ a i : Nat,
      engineGet db.store .output_amounts (u64le a) (u64le i) 2 = .error MDB_NOTFOUND →
      get_output_rct_outkey none db a i = .error (.DatabaseError MDB_NOTFOUND) ∧
        get_output_pre_rct_outkey none db a i = .error (.DatabaseError MDB_NOTFOUND)) ∧
    (∀ i : Nat,
      engineGet db.store .tx_outputs (u64le i) [0] 15 = .error MDB_NOTFOUND →
      get_tx_output_idx none db i = .error (.DatabaseError MDB_NOTFOUND)) ∧
    (∀ i : Nat,
      engineGet db.store .txs_prunable_hash (u64le i) [0] 15 = .error MDB_NOTFOUND →
      get_txs_prunable_hash none db i = .error (.DatabaseError MDB_NOTFOUND)) ∧
    (∀ i : Nat,
      engineGet db.store .txs_prunable_tip (u64le i) [0] 15 = .error MDB_NOTFOUND →
      get_txs_prunable_tip none db i = .error (.DatabaseError MDB_NOTFOUND)) ∧
    (engineGet db.store .txs_prunable_tip [0] [0] 0 = .error MDB_NOTFOUND →
      get_prunable_tip none db = .error (.DatabaseError MDB_NOTFOUND)) ∧
    (∀ i : Nat,
      engineGet db.store .output_txs ZERO_KEY (u64le i) 2 = .error MDB_NOTFOUND →
      get_output_tx none db i = .error (.DatabaseError MDB_NOTFOUND)) ∧
    (engineGet db.store .tx_indices ZERO_KEY k 2 = .error MDB_NOTFOUND →
      get_tx_indices none db k = .error (.DatabaseError MDB_NOTFOUND)) ∧
    (engineGet db.store .txpool_blob k [0] 15 = .error MDB_NOTFOUND →
      get_txpool_tx none db k = .error (.DatabaseError MDB_NOTFOUND)) ∧
    (engineGet db.store .txpool_meta k [0] 15 = .error MDB_NOTFOUND →
      get_txpool_meta none db k = .error (.DatabaseError MDB_NOTFOUND)) ∧
    (engineGet db.store .properties versionKey [0] 15 = .error MDB_NOTFOUND →
      get_db_version none db = .error (.DatabaseError MDB_NOTFOUND)) ∧
    (engineGet db.store .properties pruningSeedKey [0] 15 = .error MDB_NOTFOUND →
      get_db_pruning_seed none db = .error (.DatabaseError MDB_NOTFOUND)) ∧
    (engineGet db.store .properties maxBlockSizeKey [0] 15 = .error MDB_NOTFOUND →
      get_max_block_size none db = .error (.DatabaseError MDB_NOTFOUND)) := by
  refine ⟨fun h => ?_, fun c hc h => ?_, fun v h => ?_, fun h => ?_, fun n h => ?_,
    fun n h => ?_, fun h => ?_, fun n h => ?_, fun n h => ?_, fun n h => ?_,
    fun a i h => ⟨?_, ?_⟩, fun n h => ?_, fun n h => ?_, fun n h => ?_, fun h => ?_,
    fun n h => ?_, fun h => ?_, fun h => ?_, fun h => ?_, fun h => ?_, fun h => ?_,
    fun h => ?_⟩
  · rw [is_key_image_spent, h]; simp
  · rw [is_key_image_spent, h]; simp [hc]
  · rw [is_key_image_spent, h]
  all_goals first
    | exact get_item_engine_error _ _ _ _ _ _ _ h
    | simp [get_tx_prunable, get_raw_item, h]


/-- Witness for C3: the three translation branches evaluated concretely:
a miss over the empty store, a failing read transaction, and a stored key
image. -/
theorem key_image_spent_notfound_translation_witness :
    is_key_image_spent none ⟨[], false⟩ (List.replicate 32 0) = .ok false ∧
    is_key_image_spent (some (-30791)) ⟨[], false⟩ (List.replicate 32 0)
      = .error (.DatabaseError (-30791)) ∧
    is_key_image_spent none ⟨[⟨.spent_keys, ZERO_KEY, List.replicate 32 0⟩], false⟩
      (List.replicate 32 0) = .ok true :=
  ⟨(key_image_spent_notfound_translation none ⟨[], false⟩
      (List.replicate 32 0)).1 (by decide),
   (key_image_spent_notfound_translation (some (-30791)) ⟨[], false⟩
      (List.replicate 32 0)).2.1 (-30791) (by decide) (by decide),
   (key_image_spent_notfound_translation none
      ⟨[⟨.spent_keys, ZERO_KEY, List.replicate 32 0⟩], false⟩
      (List.replicate 32 0)).2.2.1 ⟨List.replicate 32 0⟩ (by decide)⟩

/-- Claim C10: a spent_keys lookup failure that is not an engine
DatabaseError, such as a decode failure of the stored value, makes
is_key_image_spent return Ok true instead of propagating it; and every
error the function does return is a DatabaseError whose code differs from
the not-found code. -/
theorem key_image_spent_nonstorage_failures (txn : TxnOutcome) (db : MoneroDB)
    (k : Bytes) :
    (get_item decodePublicKey txn db.store .spent_keys ZERO_KEY k 2
        = .error .MoneroDecodingError →
      is_key_image_spent txn db k = .ok true) ∧
    (∀ e : Error,
      get_item decodePublicKey txn db.store .spent_keys ZERO_KEY k 2 = .error e →
      (∀ c : Int, e ≠ .DatabaseError c) →
      is_key_image_spent txn db k = .ok true) ∧
    (∀ e : Error, is_key_image_spent txn db k = .error e →
      ∃ c : Int, e = .DatabaseError c ∧ c ≠ MDB_NOTFOUND) := by
  refine ⟨fun h => by rw [is_key_image_spent, h], fun e he hne => ?_, fun e he => ?_⟩
  · rw [is_key_image_spent, he]
    cases e with
    | DatabaseError c => exact absurd rfl (hne c)
    | ValueError s => rfl
    | MoneroDecodingError => rfl
    | ReadOnly => rfl
  · rw [is_key_image_spent] at he
    cases hres : get_item decodePublicKey txn db.store .spent_keys ZERO_KEY k 2 with
    | ok v => rw [hres] at he; cases he
    | error e2 =>
      rw [hres] at he
      cases e2 with
      | DatabaseError c =>
        by_cases hc : c = MDB_NOTFOUND
        · subst hc; simp at he
        · simp only [hc, if_false] at he
          exact ⟨c, (Except.error.inj he).symm ▸ ⟨rfl, hc⟩⟩
      | ValueError s => cases he
      | MoneroDecodingError => cases he
      | ReadOnly => cases he

/-- Witness for C10: a stored spent_keys value of 33 bytes matches the
32-byte query under the hash comparator yet fails the public key decode,
and the call still answers Ok true. -/
theorem key_image_spent_nonstorage_failures_witness :
    get_item decodePublicKey none
        ([⟨.spent_keys, ZERO_KEY, List.replicate 32 0 ++ [0]⟩] : EngineState)
        .spent_keys ZERO_KEY (List.replicate 32 0) 2
      = .error .MoneroDecodingError ∧
    is_key_image_spent none ⟨[⟨.spent_keys, ZERO_KEY, List.replicate 32 0 ++ [0]⟩], false⟩
        (List.replicate 32 0) = .ok true :=
  ⟨by decide,
   (key_image_spent_nonstorage_failures none
      ⟨[⟨.spent_keys, ZERO_KEY, List.replicate 32 0 ++ [0]⟩], false⟩
      (List.replicate 32 0)).1 (by decide)⟩

/-- BlockInfo record at height 0 with cumulative difficulty 9, used by the
difficulty evaluations. -/
def wBi0 : BlockInfo := ⟨0, 0, 0, 0, 9, 0, List.replicate 32 0, 0, 0⟩

/-- BlockInfo record at height 1 with cumulative difficulty 12, used by
the difficulty evaluations. -/
def wBi1 : BlockInfo := ⟨1, 0, 0, 0, 12, 0, List.replicate 32 0, 0, 0⟩

/-- BlockInfo record at the wrapped predecessor height of height 0, with
cumulative difficulty 5, used to exhibit the wrap-around of the height
minus one computation. -/
def wBiMax : BlockInfo := ⟨2 ^ 64 - 1, 0, 0, 0, 5, 0, List.replicate 32 0, 0, 0⟩

set_option maxRecDepth 4000

/-- Well-formedness of a BlockInfo value: every numeric field fits a u64
and the hash is 32 bytes. -/
def WfBlockInfo (bi : BlockInfo) : Prop :=
  bi.bi_height < 2 ^ 64 ∧ bi.bi_timestamp < 2 ^ 64 ∧ bi.bi_coins < 2 ^ 64 ∧
    bi.bi_weight < 2 ^ 64 ∧ bi.bi_diff_lo < 2 ^ 64 ∧ bi.bi_diff_hi < 2 ^ 64 ∧
    bi.bi_hash.length = 32 ∧ bi.bi_cum_rct < 2 ^ 64 ∧
    bi.bi_long_term_block_weight < 2 ^ 64

instance (bi : BlockInfo) : Decidable (WfBlockInfo bi) := by
  unfold WfBlockInfo; infer_instance

theorem readBytes_u64le (n : Nat) (r : Bytes) :
    readBytes 8 (u64le n ++ r) = some (u64le n, r) :=
  readBytes_append _ _ _ (length_u64le n)

theorem decodeBlockInfo_encodeBlockInfo (bi : BlockInfo) (h : WfBlockInfo bi) :
    decodeBlockInfo (encodeBlockInfo bi) = some bi := by
  obtain ⟨h1, h2, h3, h4, h5, h6, h7, h8, h9⟩ := h
  rw [decodeBlockInfo, encodeBlockInfo]
  rw [readBytes_u64le]
  simp only [Option.bind_eq_bind, Option.some_bind]
  rw [readBytes_u64le]
  simp only [Option.some_bind]
  rw [readBytes_u64le]
  simp only [Option.some_bind]
  rw [readBytes_u64le]
  simp only [Option.some_bind]
  rw [readBytes_u64le]
  simp only [Option.some_bind]
  rw [readBytes_u64le]
  simp only [Option.some_bind]
  rw [readBytes_append _ _ _ h7]
  simp only [Option.some_bind]
  rw [readBytes_u64le]
  simp only [Option.some_bind]
  rw [readBytes_exact _ _ (length_u64le _)]
  simp only [Option.some_bind, List.isEmpty_nil]
  rw [leToNat_u64le _ h1, leToNat_u64le _ h2, leToNat_u64le _ h3,
    leToNat_u64le _ h4, leToNat_u64le _ h5, leToNat_u64le _ h6,
    leToNat_u64le _ h8, leToNat_u64le _ h9]
  rfl

theorem take_eight_encodeBlockInfo (bi : BlockInfo) :
    (encodeBlockInfo bi).take 8 = u64le bi.bi_height := by
  rw [encodeBlockInfo]
  exact List.take_left' (length_u64le _)

theorem take_eight_u64le (n : Nat) : (u64le n).take 8 = u64le n :=
  List.take_of_length_le (length_u64le n).le

theorem dupCmpKind_block_info : dupCmpKind .block_info = .uint64 := by decide

theorem engineGet_blockinfo_head_match (st : EngineState) (bi : BlockInfo)
    (q : Bytes) (hq : u64le bi.bi_height = q.take 8) :
    engineGet (⟨.block_info, ZERO_KEY, encodeBlockInfo bi⟩ :: st)
        .block_info ZERO_KEY q 2 = .ok (encodeBlockInfo bi) := by
  have hpred : cmpEq (dupCmpKind .block_info) (encodeBlockInfo bi) q = true := by
    rw [dupCmpKind_block_info, cmpEq, take_eight_encodeBlockInfo, hq]
    exact beq_self_eq_true _
  simp [engineGet, List.find?, hpred]

theorem engineGet_blockinfo_head_skip (st : EngineState) (bi : BlockInfo)
    (q : Bytes) (hq : u64le bi.bi_height ≠ q.take 8) :
    engineGet (⟨.block_info, ZERO_KEY, encodeBlockInfo bi⟩ :: st)
        .block_info ZERO_KEY q 2 = engineGet st .block_info ZERO_KEY q 2 := by
  have hpred : cmpEq (dupCmpKind .block_info) (encodeBlockInfo bi) q = false := by
    rw [dupCmpKind_block_info, cmpEq, take_eight_encodeBlockInfo]
    exact beq_eq_false_iff_ne.mpr hq
  simp [engineGet, List.find?, hpred]

theorem get_item_blockinfo_head (st : EngineState) (bi : BlockInfo) (q : Bytes)
    (hwf : WfBlockInfo bi) (hq : u64le bi.bi_height = q.take 8) :
    get_item decodeBlockInfo none
        ((⟨.block_info, ZERO_KEY, encodeBlockInfo bi⟩ : Entry) :: st)
        .block_info ZERO_KEY q 2 = .ok bi := by
  simp [get_item, get_raw_item, engineGet_blockinfo_head_match st bi q hq,
    decodeBlockInfo_encodeBlockInfo bi hwf]

theorem get_item_blockinfo_skip (st : EngineState) (bi : BlockInfo) (q : Bytes)
    (hq : u64le bi.bi_height ≠ q.take 8) :
    get_item decodeBlockInfo none
        ((⟨.block_info, ZERO_KEY, encodeBlockInfo bi⟩ : Entry) :: st)
        .block_info ZERO_KEY q 2
      = get_item decodeBlockInfo none st .block_info ZERO_KEY q 2 := by
  simp only [get_item, get_raw_item, engineGet_blockinfo_head_skip st bi q hq]

/-- Counterexample to claim C4: a store holding block_info records at
heights 0 and 2 to the 64 minus 1.  The height minus one computation at
height 0 wraps to 2 to the 64 minus 1, that record is found, and the call
returns Ok 4 instead of the not-found error the claim states for every
call at height 0. -/
theorem get_block_difficulty_zero_succeeds :
    get_block_difficulty none none
        ⟨[⟨.block_info, ZERO_KEY, encodeBlockInfo wBiMax⟩,
          ⟨.block_info, ZERO_KEY, encodeBlockInfo wBi0⟩], true⟩ 0
      = .ok 4 := by
  have hprev := get_item_blockinfo_head
    [⟨.block_info, ZERO_KEY, encodeBlockInfo wBi0⟩] wBiMax
    (u64le (0 + (2 ^ 64 - 1))) (by decide)
    (by rw [take_eight_u64le]; rfl)
  have hblk : get_item decodeBlockInfo none
      ([⟨.block_info, ZERO_KEY, encodeBlockInfo wBiMax⟩,
        ⟨.block_info, ZERO_KEY, encodeBlockInfo wBi0⟩] : EngineState)
      .block_info ZERO_KEY (u64le 0) 2 = .ok wBi0 := by
    rw [get_item_blockinfo_skip _ wBiMax (u64le 0)
      (by rw [take_eight_u64le]; decide)]
    exact get_item_blockinfo_head [] wBi0 (u64le 0) (by decide)
      (by rw [take_eight_u64le]; rfl)
  rw [get_block_difficulty, hprev, hblk]
  norm_num [sub128, cumulative_difficulty, wBi0, wBiMax]

/-- Claim C4 amended: at height 0 the predecessor computation wraps modulo
2 to the 64 (release-mode semantics of the u64 subtraction; under debug
overflow checks it would abort instead), so the predecessor lookup
targets sub-key 2 to the 64 minus 1 and the call fails with the engine
not-found error exactly when no block_info record exists at that wrapped
sub-key, as the contiguous-heights invariant guarantees for real stores. -/
theorem get_block_difficulty_zero_notfound (db : MoneroDB)
    (h : engineGet db.store .block_info ZERO_KEY (u64le (2 ^ 64 - 1)) 2
        = .error MDB_NOTFOUND) :
    get_block_difficulty none none db 0 = .error (.DatabaseError MDB_NOTFOUND) := by
  have h2 := get_item_engine_error decodeBlockInfo db.store .block_info ZERO_KEY
    (u64le (0 + (2 ^ 64 - 1))) 2 MDB_NOTFOUND (by simpa using h)
  rw [get_block_difficulty, h2]

/-- Witness for the amended C4 over the empty store. -/
theorem get_block_difficulty_zero_notfound_witness :
    engineGet ([] : EngineState) .block_info ZERO_KEY (u64le (2 ^ 64 - 1)) 2
      = .error MDB_NOTFOUND ∧
    get_block_difficulty none none ⟨[], true⟩ 0
      = .error (.DatabaseError MDB_NOTFOUND) :=
  ⟨by decide, get_block_difficulty_zero_notfound ⟨[], true⟩ (by decide)⟩

/-- Claim C5: for a height of at least 1 whose BlockInfo records exist at
the height and its predecessor, get_block_difficulty returns the
difference of the two cumulative difficulties, the two lookups being
followed by the unsigned 128-bit subtraction. -/
theorem get_block_difficulty_correct (db : MoneroDB) (h : Nat)
    (prev blk : BlockInfo) (h1 : 1 ≤ h) (h2 : h < 2 ^ 64)
    (hprev : get_item decodeBlockInfo none db.store .block_info ZERO_KEY
        (u64le (h - 1)) 2 = .ok prev)
    (hblk : get_item decodeBlockInfo none db.store .block_info ZERO_KEY
        (u64le h) 2 = .ok blk)
    (hle : cumulative_difficulty prev ≤ cumulative_difficulty blk)
    (hlt : cumulative_difficulty blk < 2 ^ 128) :
    get_block_difficulty none none db h
      = .ok (cumulative_difficulty blk - cumulative_difficulty prev) := by
  have hkey : u64le (h + (2 ^ 64 - 1)) = u64le (h - 1) := by
    have e64 : (2 : Nat) ^ 64 = 18446744073709551616 := by norm_num
    have hmod : (h + (2 ^ 64 - 1)) % 2 ^ 64 = (h - 1) % 2 ^ 64 := by
      rw [e64]
      omega
    simp only [u64le, hmod]
  have hsub : sub128 (cumulative_difficulty blk) (cumulative_difficulty prev)
      = cumulative_difficulty blk - cumulative_difficulty prev := by
    unfold sub128
    have e128 : (2 : Nat) ^ 128 = 340282366920938463463374607431768211456 := by
      norm_num
    rw [e128] at hlt ⊢
    omega
  rw [get_block_difficulty, hkey, hprev, hblk]
  simpa using hsub

/-- Witness for C5: a concrete store with BlockInfo records at heights 0
and 1 carrying cumulative difficulties 9 and 12, where the call at height
1 returns 3. -/
theorem get_block_difficulty_correct_witness :
    (1 : Nat) ≤ 1 ∧
    get_block_difficulty none none
        ⟨[⟨.block_info, ZERO_KEY, encodeBlockInfo wBi0⟩,
          ⟨.block_info, ZERO_KEY, encodeBlockInfo wBi1⟩], true⟩ 1 = .ok 3 :=
  ⟨le_refl 1,
   get_block_difficulty_correct
     ⟨[⟨.block_info, ZERO_KEY, encodeBlockInfo wBi0⟩,
       ⟨.block_info, ZERO_KEY, encodeBlockInfo wBi1⟩], true⟩ 1 wBi0 wBi1
     (le_refl 1) (by norm_num)
     (get_item_blockinfo_head _ wBi0 (u64le (1 - 1)) (by decide)
       (by rw [take_eight_u64le]; rfl))
     (by
       rw [get_item_blockinfo_skip _ wBi0 (u64le 1)
         (by rw [take_eight_u64le]; decide)]
       exact get_item_blockinfo_head [] wBi1 (u64le 1) (by decide)
         (by rw [take_eight_u64le]; rfl))
     (by decide) (by decide)⟩


/-- Claim C6 evaluation: is_key_image_spent performs no length validation
on its raw byte input.  A zero-length key and a 16-byte key both reach
the engine lookup and come back as Ok false through the not-found
translation rather than failing with a ValueError, and no input at all
can make the function return a ValueError, since the source never
constructs one. -/
theorem key_image_spent_no_length_check :
    is_key_image_spent none ⟨[], false⟩ [] = .ok false ∧
    is_key_image_spent none ⟨[⟨.spent_keys, ZERO_KEY, List.replicate 32 0⟩], false⟩
        (List.replicate 16 0) = .ok false ∧
    ∀ (txn : TxnOutcome) (db : MoneroDB) (k : Bytes) (s : String),
      is_key_image_spent txn db k ≠ .error (.ValueError s) := by
  refine ⟨by decide, by decide, fun txn db k s => ?_⟩
  rw [is_key_image_spent]
  cases hres : get_item decodePublicKey txn db.store .spent_keys ZERO_KEY k 2 with
  | ok v => exact fun hcon => by cases hcon
  | error e =>
    cases e with
    | DatabaseError c =>
      by_cases hc : c = MDB_NOTFOUND
      · subst hc; simp
      · simp [hc]
    | ValueError s2 => exact fun hcon => by cases hcon
    | MoneroDecodingError => exact fun hcon => by cases hcon
    | ReadOnly => exact fun hcon => by cases hcon

/-- Modelled from the spec: one block insertion by an external writer of
the schema, adding the block hash to block_heights through the engine put
primitive; an insertion whose identical entry is already present leaves
the table unchanged. -/
def bhInsert (st : EngineState) (h : Bytes) : EngineState :=
  match enginePut st .block_heights ZERO_KEY h with
  | .ok st2 => st2
  | .error _ => st

theorem bhInsert_eq (st : EngineState) (h : Bytes) :
    bhInsert st h = if (⟨.block_heights, ZERO_KEY, h⟩ : Entry) ∈ st then st
      else ⟨.block_heights, ZERO_KEY, h⟩ :: st := by
  unfold bhInsert enginePut
  by_cases hmem : (⟨.block_heights, ZERO_KEY, h⟩ : Entry) ∈ st <;>
    simp [tableFlags, flagsIntDup, hmem]

theorem mem_foldl_bhInsert (hs : List Bytes) (st : EngineState) (e : Entry) :
    e ∈ hs.foldl bhInsert st ↔
      e ∈ st ∨ ∃ h ∈ hs, e = (⟨.block_heights, ZERO_KEY, h⟩ : Entry) := by
  induction hs generalizing st with
  | nil => simp
  | cons h t ih =>
    rw [List.foldl_cons, ih, bhInsert_eq]
    split <;> rename_i hmem
    · constructor
      · rintro (h1 | ⟨x, hx, rfl⟩)
        · exact Or.inl h1
        · exact Or.inr ⟨x, List.mem_cons_of_mem h hx, rfl⟩
      · rintro (h1 | ⟨x, hx, rfl⟩)
        · exact Or.inl h1
        · rcases List.mem_cons.mp hx with rfl | hx2
          · exact Or.inl hmem
          · exact Or.inr ⟨x, hx2, rfl⟩
    · constructor
      · rintro (h1 | ⟨x, hx, rfl⟩)
        · rcases List.mem_cons.mp h1 with rfl | h2
          · exact Or.inr ⟨h, List.mem_cons_self h t, rfl⟩
          · exact Or.inl h2
        · exact Or.inr ⟨x, List.mem_cons_of_mem h hx, rfl⟩
      · rintro (h1 | ⟨x, hx, rfl⟩)
        · exact Or.inl (List.mem_cons_of_mem _ h1)
        · rcases List.mem_cons.mp hx with rfl | hx2
          · exact Or.inl (List.mem_cons_self _ _)
          · exact Or.inr ⟨x, hx2, rfl⟩

theorem nodup_foldl_bhInsert (hs : List Bytes) (st : EngineState)
    (hnd : st.Nodup) : (hs.foldl bhInsert st).Nodup := by
  induction hs generalizing st with
  | nil => exact hnd
  | cons h t ih =>
    rw [List.foldl_cons]
    apply ih
    rw [bhInsert_eq]
    split <;> rename_i hmem
    · exact hnd
    · exact List.nodup_cons.mpr ⟨hmem, hnd⟩

theorem bhTriple_injective : Function.Injective
    (fun h : Bytes => (⟨.block_heights, ZERO_KEY, h⟩ : Entry)) := by
  intro a b hab
  simpa using congrArg Entry.data hab

/-- Claim C8: get_blockchain_height returns exactly the entry count of
the block_heights table in every store state, and after any sequence of
block insertions starting from the empty store that count is the number
of distinct block hashes inserted. -/
theorem blockchain_height_counts_entries :
    (∀ db : MoneroDB,
      get_blockchain_height none db = .ok (engineStat db.store .block_heights)) ∧
    (∀ (ro : Bool) (hs : List Bytes),
      get_blockchain_height none ⟨hs.foldl bhInsert [], ro⟩
        = .ok hs.dedup.length) := by
  constructor
  · intro db
    rfl
  · intro ro hs
    rw [get_blockchain_height]
    have hmem : ∀ e : Entry, e ∈ hs.foldl bhInsert [] ↔
        ∃ h ∈ hs, e = (⟨.block_heights, ZERO_KEY, h⟩ : Entry) := by
      intro e
      rw [mem_foldl_bhInsert]
      simp
    have hfilter : (hs.foldl bhInsert []).filter
        (fun e => e.table == TableId.block_heights) = hs.foldl bhInsert [] := by
      apply List.filter_eq_self.mpr
      intro e he
      obtain ⟨h, _, rfl⟩ := (hmem e).mp he
      rfl
    have hperm : (hs.foldl bhInsert []).Perm
        (hs.dedup.map fun h => (⟨.block_heights, ZERO_KEY, h⟩ : Entry)) := by
      rw [List.perm_ext_iff_of_nodup
        (nodup_foldl_bhInsert hs [] List.nodup_nil)
        ((List.nodup_dedup hs).map bhTriple_injective)]
      intro e
      rw [hmem e]
      simp only [List.mem_map, List.mem_dedup]
      constructor
      · rintro ⟨h, hh, rfl⟩
        exact ⟨h, hh, rfl⟩
      · rintro ⟨h, hh, rfl⟩
        exact ⟨h, hh, rfl⟩
    rw [engineStat, hfilter, hperm.length_eq, List.length_map]

/-- Claim C9: open configures the environment with a table-count ceiling
of 32, a reader ceiling of 126, read-ahead disabled and a map size of 2
to the 30; read-only opens additionally set the read-only flag and
disable locking.  The seventeen distinctly named tables are opened with
their designated flags, the duplicate flags agreeing with the
multi-value column of the data model, and set_sort installs thirteen
custom comparators once per open, six hash32, six uint64 and one string,
each set_dupsort install landing on a DUP_SORT table and each
set_compare install on a plain table. -/
theorem open_configuration :
    (∀ ro : Bool, openEnvConfig ro
      = { maxDbs := 32, mapSize := 2 ^ 30, maxReaders := 126,
          noReadahead := true, readOnly := ro, noLock := ro }) ∧
    allTables.length = 17 ∧
    (allTables.map tableName).Nodup ∧
    allTables.map tableFlags
      = [ flagsIntKey, flagsIntDup, flagsIntDup, flagsIntKey, flagsIntKey
        , flagsIntDup, flagsIntDup, flagsIntDup, flagsIntDup, flagsIntDup
        , flagsIntDup, flagsIntDup, flagsEmpty, flagsEmpty, flagsEmpty
        , flagsIntKey, flagsEmpty ] ∧
    (∀ t ∈ allTables, (tableFlags t).dupSort = specMultiValue t) ∧
    sortInstalls.length = 13 ∧
    (sortInstalls.map SortInstall.table).Nodup ∧
    (sortInstalls.filter fun i => i.cmp == CmpKind.hash32).length = 6 ∧
    (sortInstalls.filter fun i => i.cmp == CmpKind.uint64).length = 6 ∧
    (sortInstalls.filter fun i => i.cmp == CmpKind.cstring).length = 1 ∧
    ∀ i ∈ sortInstalls, i.dup = (tableFlags i.table).dupSort := by
  decide

/-- Witness for C9: the configuration facts instantiated at the read-only
flag and at the spent_keys table. -/
theorem open_configuration_witness :
    openEnvConfig true
      = { maxDbs := 32, mapSize := 2 ^ 30, maxReaders := 126,
          noReadahead := true, readOnly := true, noLock := true } ∧
    (tableFlags .spent_keys).dupSort = specMultiValue .spent_keys :=
  ⟨open_configuration.1 true,
   open_configuration.2.2.2.2.1 .spent_keys (by decide)⟩

end MoneroDb
